import Mathlib

/-!
Shallow embedding of the `ai-memory-code-snippet` repository
(`src/agent_memory.py`, `src/history_store.py`, `src/summarizer.py`).

Python text is modelled as `List Char`; Python `str.strip`, `str.lower`,
slicing and `str.count` are embedded as executable functions below.
Stateful methods of `AgentMemoryManager` become explicit state passing
over `MemState`; the session-keyed JSONL archive of `JsonlHistoryStore`
becomes a function from session id to a list of archive lines, where a
line is either a well-formed serialized turn (`Line.ok`) or a malformed
record (`Line.bad`, modelling a line on which `json.loads` raises).
Fallible calls (the LLM summarizer, disk I/O of the archival append)
are modelled with `Except` / an explicit success flag; a raised Python
exception becomes an error value that the caller sees, together with
the state as mutated up to the raising statement.
-/

namespace AgentMemory

/-- Python text: a string as a sequence of characters. -/
abbrev Str := List Char

/-- Python `str.strip()`: remove leading and trailing whitespace. -/
def pyStrip (s : Str) : Str :=
  ((s.dropWhile Char.isWhitespace).reverse.dropWhile Char.isWhitespace).reverse

/-- Python `str.lower()`: lowercase every character. -/
def pyLower (s : Str) : Str := s.map Char.toLower

/-- Whether `pat` occurs at the start of `s` (helper for occurrence counting). -/
def startsWithStr (s pat : Str) : Bool := s.take pat.length == pat

/-- Left-to-right scan counting non-overlapping occurrences of `pat`;
`skip` is the number of characters still covered by the last match. -/
def countOccAux (pat : Str) : Str → Nat → Nat
  | [], _ => 0
  | c :: rest, skip =>
    if 0 < skip then countOccAux pat rest (skip - 1)
    else if startsWithStr (c :: rest) pat then 1 + countOccAux pat rest (pat.length - 1)
    else countOccAux pat rest 0

/-- Python `hay.count(pat)`: number of non-overlapping occurrences of
`pat` in `hay` (for the empty pattern Python returns `len(hay) + 1`). -/
def countOcc (hay pat : Str) : Nat :=
  if pat = [] then hay.length + 1 else countOccAux pat hay 0

/-- Python `sep.join(parts)`. -/
def joinSep (sep : Str) : List Str → Str
  | [] => []
  | [x] => x
  | x :: y :: xs => x ++ sep ++ joinSep sep (y :: xs)

/-- A recorded turn (`_add_turn` in `agent_memory.py` builds the dict
with keys `role`, `content`, `ts`, `id`; `ts` is an abstract timestamp,
`id` an abstract unique token). -/
structure Turn where
  role : Str
  content : Str
  ts : Nat
  id : Str
deriving DecidableEq

/-- One line of a session's JSONL archive file: either a well-formed
serialized turn, or a malformed record on which `json.loads` raises. -/
inductive Line where
  | ok (t : Turn)
  | bad
deriving DecidableEq

/-- The archive of `JsonlHistoryStore`: one line list per session id
(one jsonl file per session, named by the session id; a missing file
reads as `[]`). -/
abbrev Store := Str → List Line

/-- A store with no session files yet. -/
def emptyStore : Store := fun _ => []

namespace JsonlHistoryStore

/-- Method `JsonlHistoryStore.append`: write one record per turn, preserving
input order, to the session's log. -/
def append (store : Store) (session_id : Str) (turns : List Turn) : Store :=
  fun s => if s = session_id then store s ++ turns.map Line.ok else store s

/-- The line-replay loop of `read_all`: parse each line in order; a
malformed line makes `json.loads` raise, which aborts the whole read
(there is no exception handling around the loop in the source). -/
def parseLines : List Line → Except Str (List Turn)
  | [] => Except.ok []
  | Line.ok t :: rest => (parseLines rest).map (fun ts => t :: ts)
  | Line.bad :: _ => Except.error (("malformed record").data)

/-- Method `JsonlHistoryStore.read_all`: every record ever appended for the
session, in append order; empty if the session has no log yet. -/
def read_all (store : Store) (session_id : Str) : Except Str (List Turn) :=
  parseLines (store session_id)

end JsonlHistoryStore

/-- A keyword-search hit, a dict of a score (`float(score)`) and a row.
The score is always an integer-valued count, kept here as `Nat`. -/
structure SearchHit where
  score : Nat
  turn : Turn
deriving DecidableEq

/-- The comparison used by `hits.sort` on descending score:
`a` may come before `b` when `b`'s score is at most `a`'s. -/
def hitLE (a b : SearchHit) : Prop := b.score ≤ a.score

instance : DecidableRel hitLE := fun a b => Nat.decLe b.score a.score

instance : IsTotal SearchHit hitLE :=
  ⟨fun a b => (Nat.le_total a.score b.score).symm⟩

instance : IsTrans SearchHit hitLE :=
  ⟨fun _ _ _ hab hbc => Nat.le_trans hbc hab⟩

/-- Python `list.sort(key=..., reverse=True)` is a stable descending
sort; any stable sort computes the same list, so it is modelled by
insertion sort with `hitLE`. -/
def sortHits (hits : List SearchHit) : List SearchHit := hits.insertionSort hitLE

/-- The scan-and-score loop of `keyword_search`: score every row by
the non-overlapping occurrence count of the query in its lowercased
content and keep the rows with a positive score, in read order. -/
def scoredHits (rows : List Turn) (q : Str) : List SearchHit :=
  rows.filterMap (fun row =>
    if 0 < countOcc (pyLower row.content) q
    then some (SearchHit.mk (countOcc (pyLower row.content) q) row) else none)

namespace JsonlHistoryStore

/-- Method `JsonlHistoryStore.keyword_search`: trim and lowercase the query;
an empty query returns `[]` before touching storage; otherwise score
every archived row, keep positive scores, sort stably by descending
score and return the first `top_k`. -/
def keyword_search (store : Store) (session_id : Str) (query : Str) (top_k : Nat) :
    Except Str (List SearchHit) :=
  if pyLower (pyStrip query) = [] then Except.ok []
  else
    match read_all store session_id with
    | Except.error e => Except.error e
    | Except.ok rows =>
      Except.ok ((sortHits (scoredHits rows (pyLower (pyStrip query)))).take top_k)

end JsonlHistoryStore

/-- Method `LlmSummarizer.compact` of `summarizer.py`: build the fixed system
prompt and the user prompt from the previous summary and the recent
turns, call the injected LLM client, and strip the result. The client
is modelled as a fallible function. -/
def LlmSummarizerCompact (llm_client : Str → Str → Except Str Str)
    (previous_summary : Str) (recent_turns : List Turn) : Except Str Str :=
  let system_prompt :=
    ("You summarize agent conversations into a compact state log.\nRules:\n- Keep only stable facts, decisions, failures, and next steps.\n- Do NOT include fluff.\n- Do NOT copy the whole transcript.\n- Write in plain text.\n- Output format:\n  Goal:\n  Key facts:\n  Decisions:\n  What we tried:\n  Failures / risks:\n  Next step:\n").data
  let transcript := joinSep (("\n").data)
    ((recent_turns.filter (fun t =>
        (t.role == ("user").data || t.role == ("assistant").data)
          && !(pyStrip t.content).isEmpty)).map
      (fun t => t.role ++ (": ").data ++ pyStrip t.content))
  let user_prompt :=
    ("Previous state summary (may be empty):\n").data ++ pyStrip previous_summary
      ++ ("\n\nRecent turns:\n").data ++ transcript
      ++ ("\n\nUpdate the state summary now.").data
  (llm_client system_prompt user_prompt).map pyStrip

/-- The `MemoryConfig` guardrails, with the source's defaults. -/
structure MemoryConfig where
  max_turns : Nat := 5
  max_tokens : Nat := 2500
  search_top_k : Nat := 5
  summary_max_chars : Nat := 1400

/-- The `PromptLedger` debug receipt; its notes dict holds exactly the
keys `history_query` and `guardrails`, kept here as two fields. -/
structure PromptLedger where
  session_id : Str
  token_estimate : Nat
  included_summary : Bool
  included_active_turns : Nat
  included_history_hits : Nat
  notes_history_query : Option Str
  notes_guardrails : Str

/-- Function `_rough_tokens`: cheap heuristic, about 4 chars per token. -/
def _rough_tokens (text : Str) : Nat := max 1 (text.length / 4)

/-- Function `_estimate_tokens`: summed rough estimate of the turns' contents. -/
def _estimate_tokens (turns : List Turn) : Nat :=
  (turns.map (fun t => _rough_tokens t.content)).sum

/-- The mutable state of one `AgentMemoryManager` instance. -/
structure MemState where
  active_turns : List Turn
  rolling_summary : Str
deriving DecidableEq

/-- State right after `__init__`: no active turns, empty summary. -/
def initialState : MemState := { active_turns := [], rolling_summary := [] }

/-- Method `_add_turn`: append a fresh turn to the active working set
(timestamp and unique id are supplied by the environment). -/
def _add_turn (st : MemState) (role content : Str) (ts : Nat) (id : Str) : MemState :=
  { st with active_turns := st.active_turns ++ [Turn.mk role content ts id] }

/-- Method `add_user`. -/
def add_user (st : MemState) (content : Str) (ts : Nat) (id : Str) : MemState :=
  _add_turn st (("user").data) content ts id

/-- Method `add_assistant`. -/
def add_assistant (st : MemState) (content : Str) (ts : Nat) (id : Str) : MemState :=
  _add_turn st (("assistant").data) content ts id

/-- Method `_should_compact`: count threshold or token-estimate threshold. -/
def _should_compact (cfg : MemoryConfig) (st : MemState) : Bool :=
  if cfg.max_turns ≤ st.active_turns.length then true
  else if cfg.max_tokens ≤ _estimate_tokens st.active_turns then true
  else false

/-- The recency-bounded slice handed to the summarizer:
`self.active_turns[-10:] if len(self.active_turns) > 10 else self.active_turns`. -/
def recentSlice (turns : List Turn) : List Turn :=
  if 10 < turns.length then turns.drop (turns.length - 10) else turns

/-- Method `_compact`: archive the active turns, summarize a recent slice,
replace the rolling summary (truncated and stripped), clear the
active set. `append_ok` models whether the durable archival write
succeeds; a failed write or a failed summarizer call raises, so the
returned state is the state as mutated up to the raising statement
and the error is surfaced in the third component. -/
def _compact (cfg : MemoryConfig) (summarizer : Str → List Turn → Except Str Str)
    (append_ok : Bool) (session_id : Str) (st : MemState) (store : Store) :
    MemState × Store × Option Str :=
  if st.active_turns = [] then (st, store, none)
  else if append_ok = false then (st, store, some (("append failed").data))
  else
    let store2 := JsonlHistoryStore.append store session_id st.active_turns
    match summarizer st.rolling_summary (recentSlice st.active_turns) with
    | Except.error e => (st, store2, some e)
    | Except.ok new_summary =>
      ({ active_turns := [],
         rolling_summary := pyStrip (new_summary.take cfg.summary_max_chars) },
       store2, none)

/-- One outgoing message: a role and a content. -/
structure Msg where
  role : Str
  content : Str
deriving DecidableEq

/-- Rendering of one search hit inside the history system message:
`[score=S] role: content`, where `S` prints the Python float (the
integer count converted by `float(...)`, hence a trailing `.0`). -/
def renderHit (h : SearchHit) : Str :=
  ("[score=").data ++ (Nat.repr h.score).data ++ (".0] ").data
    ++ h.turn.role ++ (": ").data ++ h.turn.content

/-- The `guardrails` note string of the ledger. -/
def guardrailsNote (cfg : MemoryConfig) : Str :=
  ("max_turns=").data ++ (Nat.repr cfg.max_turns).data
    ++ (", max_tokens=").data ++ (Nat.repr cfg.max_tokens).data

/-- The conditional system message carrying the rolling summary
(appended iff the rolling summary is non-empty after stripping). -/
def summaryBlock (rolling_summary : Str) : List Msg :=
  if (pyStrip rolling_summary).isEmpty then []
  else [Msg.mk (("system").data)
    ((("Rolling summary (state):\n").data) ++ pyStrip rolling_summary)]

/-- The conditional system message carrying the history hits
(appended iff at least one hit was found). -/
def historyBlock (history_hits : List SearchHit) : List Msg :=
  if history_hits.isEmpty then []
  else [Msg.mk (("system").data)
    ((("Potentially relevant history (treat as stale unless verified):\n").data)
      ++ joinSep (("\n\n").data) (history_hits.map renderHit))]

/-- The pure assembly part of `build_messages` (source lines 152-200):
build the message list by successive appends and produce the ledger. -/
def assemble (cfg : MemoryConfig) (session_id : Str) (st1 : MemState) (store1 : Store)
    (system_prompt user_message : Str) (history_query : Option Str)
    (history_hits : List SearchHit) : List Msg × PromptLedger × MemState × Store :=
  let messages1 := [Msg.mk (("system").data) (pyStrip system_prompt)]
  let messages2 := messages1 ++ summaryBlock st1.rolling_summary
  let messages3 := messages2 ++ st1.active_turns.map (fun t => Msg.mk t.role t.content)
  let messages4 := messages3 ++ historyBlock history_hits
  let messages := messages4 ++ [Msg.mk (("user").data) user_message]
  let token_estimate :=
    _rough_tokens system_prompt + _rough_tokens st1.rolling_summary
      + _estimate_tokens st1.active_turns
      + (history_hits.map (fun h => _rough_tokens h.turn.content)).sum
      + _rough_tokens user_message
  (messages,
   { session_id := session_id
     token_estimate := token_estimate
     included_summary := !(pyStrip st1.rolling_summary).isEmpty
     included_active_turns := st1.active_turns.length
     included_history_hits := history_hits.length
     notes_history_query := history_query
     notes_guardrails := guardrailsNote cfg },
   st1, store1)

/-- Step 1 of `build_messages`: run `_compact` when `_should_compact` holds. -/
def compactStep (cfg : MemoryConfig) (summarizer : Str → List Turn → Except Str Str)
    (append_ok : Bool) (session_id : Str) (st : MemState) (store : Store) :
    MemState × Store × Option Str :=
  if _should_compact cfg st
  then _compact cfg summarizer append_ok session_id st store
  else (st, store, none)

/-- Step 2 of `build_messages`: if the query is truthy run the keyword
search, otherwise no history is retrieved (`None` and the empty string
are both falsy in Python). -/
def searchStep (cfg : MemoryConfig) (store1 : Store) (session_id : Str)
    (history_query : Option Str) : Except Str (List SearchHit) :=
  match history_query with
  | none => Except.ok []
  | some hq =>
    if hq = [] then Except.ok []
    else JsonlHistoryStore.keyword_search store1 session_id hq cfg.search_top_k

/-- Method `build_messages`: eagerly compact when over budget (an exception
from `_compact` propagates), optionally run the keyword search (an
exception from `read_all` propagates), then assemble the message
sequence and the ledger. The updated manager state and store are
returned alongside; an error result carries no state, the mutations
up to the raising statement being observable through `_compact`. -/
def build_messages (cfg : MemoryConfig) (summarizer : Str → List Turn → Except Str Str)
    (append_ok : Bool) (session_id : Str) (st : MemState) (store : Store)
    (system_prompt user_message : Str) (history_query : Option Str) :
    Except Str (List Msg × PromptLedger × MemState × Store) :=
  match compactStep cfg summarizer append_ok session_id st store with
  | (_, _, some e) => Except.error e
  | (st1, store1, none) =>
    match searchStep cfg store1 session_id history_query with
    | Except.error e => Except.error e
    | Except.ok history_hits =>
      Except.ok (assemble cfg session_id st1 store1 system_prompt user_message
        history_query history_hits)

/-! Concrete instances used to exercise the definitions. -/

/-- A concrete user turn. -/
def turnA : Turn := Turn.mk (("user").data) (("the cat sat").data) 0 (("a1").data)

/-- A concrete assistant turn. -/
def turnB : Turn := Turn.mk (("assistant").data) (("a cat ran").data) 1 (("b2").data)

/-- A concrete non-matching turn. -/
def turnC : Turn := Turn.mk (("user").data) (("no match here").data) 2 (("c3").data)

/-- A concrete session id. -/
def sessionA : Str := ("s").data

/-- A store whose session log has a malformed middle record. -/
def badStore : Store := fun _ => [Line.ok turnA, Line.bad, Line.ok turnB]

/-- A store whose session log holds three well-formed records. -/
def goodStore : Store := fun _ => [Line.ok turnA, Line.ok turnB, Line.ok turnC]

/-- A summarizer that always succeeds with a fixed summary. -/
def okSumm : Str → List Turn → Except Str Str :=
  fun _ _ => Except.ok (("Goal: demo").data)

/-- A summarizer that always raises. -/
def errSumm : Str → List Turn → Except Str Str :=
  fun _ _ => Except.error (("llm down").data)

/-- The default guardrail configuration. -/
def wCfg : MemoryConfig := {}

/-- A manager state holding one active turn. -/
def stA : MemState := { active_turns := [turnA], rolling_summary := [] }

/-- A concrete system prompt. -/
def wSys : Str := ("hi there").data

/-- A concrete user message. -/
def wUser : Str := ("yo").data

/-- The message list `build_messages` produces from `initialState`
with no query: just the system prompt and the user message. -/
def wMsgs : List Msg :=
  [Msg.mk (("system").data) (("hi there").data), Msg.mk (("user").data) (("yo").data)]

/-- The ledger produced alongside `wMsgs`. -/
def wLedger : PromptLedger :=
  PromptLedger.mk sessionA 4 false 0 0 none (guardrailsNote wCfg)

/-! Helper lemmas. -/

theorem length_dropWhile_le (p : Char → Bool) (l : List Char) :
    (l.dropWhile p).length ≤ l.length := by
  induction l with
  | nil => simp
  | cons c cs ih =>
    rw [List.dropWhile_cons]
    split
    · exact Nat.le_trans ih (Nat.le_succ _)
    · simp

theorem pyStrip_length_le (s : Str) : (pyStrip s).length ≤ s.length := by
  unfold pyStrip
  rw [List.length_reverse]
  refine Nat.le_trans (length_dropWhile_le _ _) ?hrest
  rw [List.length_reverse]
  exact length_dropWhile_le _ _

theorem one_le_rough_tokens (s : Str) : 1 ≤ _rough_tokens s :=
  Nat.le_max_left 1 _

theorem length_le_estimate_tokens (l : List Turn) : l.length ≤ _estimate_tokens l := by
  induction l with
  | nil => simp [_estimate_tokens]
  | cons t ts ih =>
    simp only [_estimate_tokens, List.map_cons, List.sum_cons, List.length_cons] at ih ⊢
    have h1 := one_le_rough_tokens t.content
    omega

/-! Claim theorems. -/

/-- Claim C4: `_should_compact` is a pure predicate, true exactly when
the active-turn count is at least `max_turns` or the token estimate of
the active set is at least `max_tokens`; the estimate is the sum over
active turns of `max 1 (length / 4)` and is monotone in text length. -/
theorem should_compact_spec (cfg : MemoryConfig) (st : MemState) :
    (_should_compact cfg st = true ↔
      cfg.max_turns ≤ st.active_turns.length
        ∨ cfg.max_tokens ≤ _estimate_tokens st.active_turns)
    ∧ _estimate_tokens st.active_turns
        = (st.active_turns.map (fun t => max 1 (t.content.length / 4))).sum
    ∧ (∀ s t : Str, s.length ≤ t.length → _rough_tokens s ≤ _rough_tokens t) := by
  refine ⟨?hiff, rfl, ?hmono⟩
  · unfold _should_compact
    split
    · simp_all
    · split <;> simp_all
  · intro s t h
    unfold _rough_tokens
    exact max_le_max (Nat.le_refl 1) (Nat.div_le_div_right h)

theorem should_compact_spec_witness :
    (("ab").data).length ≤ (("abcdef").data).length
    ∧ _rough_tokens (("ab").data) ≤ _rough_tokens (("abcdef").data) :=
  ⟨by decide,
   (should_compact_spec wCfg initialState).2.2 (("ab").data) (("abcdef").data) (by decide)⟩

/-- Claim C9: `_compact` on an empty active set is a no-op: state,
summary and archive unchanged, no error; the result does not depend on
the summarizer or on whether the archival write would succeed, so
neither collaborator is invoked. -/
theorem compact_empty_noop (cfg : MemoryConfig)
    (summarizer : Str → List Turn → Except Str Str) (append_ok : Bool)
    (session_id : Str) (st : MemState) (store : Store)
    (h : st.active_turns = []) :
    _compact cfg summarizer append_ok session_id st store = (st, store, none) := by
  unfold _compact
  simp [h]

theorem compact_empty_noop_witness :
    initialState.active_turns = []
    ∧ _compact wCfg errSumm false sessionA initialState emptyStore
        = (initialState, emptyStore, none) :=
  ⟨rfl, compact_empty_noop wCfg errSumm false sessionA initialState emptyStore rfl⟩

/-- Claim C2: if the summarizer raises after the archival append
succeeded, `_compact` surfaces the error and leaves the rolling
summary (indeed the whole manager state) unchanged; if the archival
append itself fails, `_compact` surfaces the error and does not clear
the active working set (state and archive unchanged). -/
theorem compact_failure_spec (cfg : MemoryConfig)
    (summarizer : Str → List Turn → Except Str Str)
    (session_id : Str) (st : MemState) (store : Store) :
    (∀ e, st.active_turns ≠ [] →
      summarizer st.rolling_summary (recentSlice st.active_turns) = Except.error e →
      _compact cfg summarizer true session_id st store
        = (st, JsonlHistoryStore.append store session_id st.active_turns, some e))
    ∧ (st.active_turns ≠ [] →
      _compact cfg summarizer false session_id st store
        = (st, store, some (("append failed").data))) := by
  constructor
  · intro e hne hsum
    unfold _compact
    simp [hne, hsum]
  · intro hne
    unfold _compact
    simp [hne]

theorem compact_failure_spec_witness :
    stA.active_turns ≠ []
    ∧ errSumm stA.rolling_summary (recentSlice stA.active_turns)
        = Except.error (("llm down").data)
    ∧ _compact wCfg errSumm true sessionA stA emptyStore
        = (stA, JsonlHistoryStore.append emptyStore sessionA stA.active_turns,
           some (("llm down").data))
    ∧ _compact wCfg errSumm false sessionA stA emptyStore
        = (stA, emptyStore, some (("append failed").data)) :=
  ⟨by decide, rfl,
   (compact_failure_spec wCfg errSumm sessionA stA emptyStore).1 _ (by decide) rfl,
   (compact_failure_spec wCfg errSumm sessionA stA emptyStore).2 (by decide)⟩

/-- Claim C5: a successful `_compact` on a non-empty active set appends
every active turn, in order, to this session's archive (other sessions
untouched) and clears the active set in full, so count and token
estimate are zero afterwards; and each `_add_turn` grows both count
and estimate monotonically. -/
theorem compact_success_spec (cfg : MemoryConfig)
    (summarizer : Str → List Turn → Except Str Str)
    (session_id : Str) (st : MemState) (store : Store) (out : Str)
    (hne : st.active_turns ≠ [])
    (hsum : summarizer st.rolling_summary (recentSlice st.active_turns) = Except.ok out) :
    (∃ st2 store2,
      _compact cfg summarizer true session_id st store = (st2, store2, none)
      ∧ store2 session_id = store session_id ++ st.active_turns.map Line.ok
      ∧ (∀ s, s ≠ session_id → store2 s = store s)
      ∧ st2.active_turns = []
      ∧ st2.active_turns.length = 0
      ∧ _estimate_tokens st2.active_turns = 0)
    ∧ (∀ (stx : MemState) (role content : Str) (ts : Nat) (id : Str),
        (_add_turn stx role content ts id).active_turns.length
            = stx.active_turns.length + 1
        ∧ _estimate_tokens stx.active_turns
            ≤ _estimate_tokens ((_add_turn stx role content ts id).active_turns)) := by
  constructor
  · refine ⟨MemState.mk [] (pyStrip (out.take cfg.summary_max_chars)),
      JsonlHistoryStore.append store session_id st.active_turns,
      ?heq, ?hsid, ?hother, rfl, rfl, rfl⟩
    · unfold _compact
      simp [hne, hsum]
    · unfold JsonlHistoryStore.append
      simp
    · intro s hs
      unfold JsonlHistoryStore.append
      simp [hs]
  · intro stx role content ts id
    constructor
    · simp [_add_turn]
    · simp only [_add_turn, _estimate_tokens, List.map_append, List.sum_append]
      exact Nat.le_add_right _ _

theorem compact_success_spec_witness :
    (∃ st2 store2,
      _compact wCfg okSumm true sessionA stA emptyStore = (st2, store2, none)
      ∧ store2 sessionA = emptyStore sessionA ++ stA.active_turns.map Line.ok
      ∧ (∀ s, s ≠ sessionA → store2 s = emptyStore s)
      ∧ st2.active_turns = []
      ∧ st2.active_turns.length = 0
      ∧ _estimate_tokens st2.active_turns = 0)
    ∧ (∀ (stx : MemState) (role content : Str) (ts : Nat) (id : Str),
        (_add_turn stx role content ts id).active_turns.length
            = stx.active_turns.length + 1
        ∧ _estimate_tokens stx.active_turns
            ≤ _estimate_tokens ((_add_turn stx role content ts id).active_turns)) :=
  compact_success_spec wCfg okSumm sessionA stA emptyStore (("Goal: demo").data)
    (by decide) rfl

/-- Claim C6: after a successful `_compact` on a non-empty active set,
the rolling summary equals the summarizer's output on (previous
summary, last 10 active turns or all if fewer), truncated to
`summary_max_chars` and stripped of surrounding whitespace, a full
replacement whose length never exceeds `summary_max_chars`. -/
theorem compact_summary_spec (cfg : MemoryConfig)
    (summarizer : Str → List Turn → Except Str Str)
    (session_id : Str) (st : MemState) (store : Store) (out : Str)
    (hne : st.active_turns ≠ [])
    (hsum : summarizer st.rolling_summary (recentSlice st.active_turns) = Except.ok out) :
    ∃ st2 store2,
      _compact cfg summarizer true session_id st store = (st2, store2, none)
      ∧ st2.rolling_summary = pyStrip (out.take cfg.summary_max_chars)
      ∧ st2.rolling_summary.length ≤ cfg.summary_max_chars
      ∧ recentSlice st.active_turns
          = (if st.active_turns.length ≤ 10 then st.active_turns
             else st.active_turns.drop (st.active_turns.length - 10))
      ∧ (recentSlice st.active_turns).length = min st.active_turns.length 10 := by
  refine ⟨MemState.mk [] (pyStrip (out.take cfg.summary_max_chars)),
    JsonlHistoryStore.append store session_id st.active_turns,
    ?heq, rfl, ?hlen, ?hslice, ?hslicelen⟩
  · unfold _compact
    simp [hne, hsum]
  · exact Nat.le_trans (pyStrip_length_le _) (List.length_take_le _ _)
  · by_cases h : 10 < st.active_turns.length
    · rw [recentSlice, if_pos h, if_neg (by omega)]
    · rw [recentSlice, if_neg h, if_pos (by omega)]
  · by_cases h : 10 < st.active_turns.length
    · rw [recentSlice, if_pos h, List.length_drop]
      omega
    · rw [recentSlice, if_neg h]
      omega

theorem compact_summary_spec_witness :
    ∃ st2 store2,
      _compact wCfg okSumm true sessionA stA emptyStore = (st2, store2, none)
      ∧ st2.rolling_summary = pyStrip ((("Goal: demo").data).take wCfg.summary_max_chars)
      ∧ st2.rolling_summary.length ≤ wCfg.summary_max_chars
      ∧ recentSlice stA.active_turns
          = (if stA.active_turns.length ≤ 10 then stA.active_turns
             else stA.active_turns.drop (stA.active_turns.length - 10))
      ∧ (recentSlice stA.active_turns).length = min stA.active_turns.length 10 :=
  compact_summary_spec wCfg okSumm sessionA stA emptyStore (("Goal: demo").data)
    (by decide) rfl

theorem parseLines_map_ok (ts : List Turn) :
    JsonlHistoryStore.parseLines (ts.map Line.ok) = Except.ok ts := by
  induction ts with
  | nil => rfl
  | cons t rest ih => simp [JsonlHistoryStore.parseLines, ih, Except.map]

theorem foldl_append_apply (session_id : Str) (batches : List (List Turn)) (store : Store) :
    (batches.foldl (fun s b => JsonlHistoryStore.append s session_id b) store) session_id
      = store session_id ++ (batches.flatten).map Line.ok := by
  induction batches generalizing store with
  | nil => simp
  | cons b bs ih =>
    simp only [List.foldl_cons, List.flatten_cons, List.map_append]
    rw [ih]
    unfold JsonlHistoryStore.append
    simp [List.append_assoc]

/-- Claim C8: for every session, `read_all` after any sequence of
`append` calls returns exactly the concatenation of all appended turns
in call order, independent of batching; each retrieved turn is equal
(hence equal on role, content and id) to the appended one. -/
theorem append_read_all_roundtrip (session_id : Str) (batches : List (List Turn)) :
    JsonlHistoryStore.read_all
        (batches.foldl (fun s b => JsonlHistoryStore.append s session_id b) emptyStore)
        session_id
      = Except.ok batches.flatten
    ∧ (∀ batches2 : List (List Turn), batches.flatten = batches2.flatten →
        JsonlHistoryStore.read_all
            (batches.foldl (fun s b => JsonlHistoryStore.append s session_id b) emptyStore)
            session_id
          = JsonlHistoryStore.read_all
              (batches2.foldl (fun s b => JsonlHistoryStore.append s session_id b) emptyStore)
              session_id) := by
  have hmain : ∀ bs : List (List Turn),
      JsonlHistoryStore.read_all
          (bs.foldl (fun s b => JsonlHistoryStore.append s session_id b) emptyStore)
          session_id
        = Except.ok bs.flatten := by
    intro bs
    unfold JsonlHistoryStore.read_all
    rw [foldl_append_apply]
    simpa [emptyStore] using parseLines_map_ok bs.flatten
  refine ⟨hmain batches, ?hinv⟩
  intro batches2 hflat
  rw [hmain batches, hmain batches2, hflat]

theorem append_read_all_roundtrip_witness :
    ([[turnA], [turnB]] : List (List Turn)).flatten
        = ([[turnA, turnB]] : List (List Turn)).flatten
    ∧ JsonlHistoryStore.read_all
        (([[turnA], [turnB]] : List (List Turn)).foldl
          (fun s b => JsonlHistoryStore.append s sessionA b) emptyStore) sessionA
      = JsonlHistoryStore.read_all
          (([[turnA, turnB]] : List (List Turn)).foldl
            (fun s b => JsonlHistoryStore.append s sessionA b) emptyStore) sessionA :=
  ⟨by decide,
   (append_read_all_roundtrip sessionA [[turnA], [turnB]]).2 [[turnA, turnB]] (by decide)⟩

theorem parseLines_ok_iff (l : List Line) :
    (∃ rows, JsonlHistoryStore.parseLines l = Except.ok rows) ↔ Line.bad ∉ l := by
  induction l with
  | nil => simp [JsonlHistoryStore.parseLines]
  | cons ln rest ih =>
    cases ln with
    | bad => simp [JsonlHistoryStore.parseLines]
    | ok t =>
      simp only [List.mem_cons, JsonlHistoryStore.parseLines]
      constructor
      · rintro ⟨rows, hr⟩ hmem
        cases hpr : JsonlHistoryStore.parseLines rest with
        | error e =>
          rw [hpr] at hr
          simp [Except.map] at hr
        | ok rs =>
          rcases hmem with h | h
          · exact Line.noConfusion h
          · exact (ih.mp ⟨rs, hpr⟩) h
      · intro hnot
        obtain ⟨rs, hrs⟩ := ih.mpr (fun h => hnot (Or.inr h))
        exact ⟨t :: rs, by rw [hrs]; rfl⟩

/-- Claim C3 (amended): a malformed archive record is not skipped:
a read succeeds exactly when no line of the session's log is
malformed, and a failing read makes a non-empty-query search fail
with the same error (the whole read/search aborts on one bad line). -/
theorem read_all_aborts_on_malformed (store : Store) (session_id query : Str) (k : Nat) :
    ((∃ rows, JsonlHistoryStore.read_all store session_id = Except.ok rows)
      ↔ Line.bad ∉ store session_id)
    ∧ (∀ e, JsonlHistoryStore.read_all store session_id = Except.error e →
        pyLower (pyStrip query) ≠ [] →
        JsonlHistoryStore.keyword_search store session_id query k = Except.error e) := by
  constructor
  · exact parseLines_ok_iff (store session_id)
  · intro e herr hq
    unfold JsonlHistoryStore.keyword_search
    rw [if_neg hq, herr]

theorem read_all_aborts_witness :
    Line.bad ∈ badStore sessionA
    ∧ JsonlHistoryStore.keyword_search badStore sessionA (("cat").data) 5
        = Except.error (("malformed record").data) :=
  ⟨by decide,
   (read_all_aborts_on_malformed badStore sessionA (("cat").data) 5).2
     (("malformed record").data) rfl (by decide)⟩

/-- Claim C3 counterexample: on the concrete archive
`[ok turnA, bad, ok turnB]` the code does not skip the malformed
middle record and return the remaining rows: `read_all` aborts the
whole read with an error, and `keyword_search` aborts likewise. -/
theorem read_all_skip_counterexample :
    JsonlHistoryStore.read_all badStore sessionA ≠ Except.ok [turnA, turnB]
    ∧ JsonlHistoryStore.read_all badStore sessionA
        = Except.error (("malformed record").data)
    ∧ JsonlHistoryStore.keyword_search badStore sessionA (("cat").data) 5
        ≠ Except.ok [SearchHit.mk 1 turnA, SearchHit.mk 1 turnB]
    ∧ JsonlHistoryStore.keyword_search badStore sessionA (("cat").data) 5
        = Except.error (("malformed record").data) := by
  refine ⟨fun h => Except.noConfusion h, rfl, fun h => Except.noConfusion h, rfl⟩

theorem sortHits_filter_score (l : List SearchHit) (n : Nat) :
    (sortHits l).filter (fun h => h.score == n) = l.filter (fun h => h.score == n) := by
  have hperm : ((sortHits l).filter (fun h => h.score == n)).Perm
      (l.filter (fun h => h.score == n)) :=
    List.Perm.filter _ (List.perm_insertionSort hitLE l)
  have hpair : (l.filter (fun h => h.score == n)).Pairwise hitLE := by
    apply List.pairwise_of_forall_mem_list
    intro a ha b hb
    have ha2 : a.score = n := by simpa using (List.mem_filter.mp ha).2
    have hb2 : b.score = n := by simpa using (List.mem_filter.mp hb).2
    unfold hitLE
    omega
  have hsub : (l.filter (fun h => h.score == n)).Sublist (sortHits l) :=
    List.sublist_insertionSort hpair (List.filter_sublist l)
  have hsub2 := List.Sublist.filter (fun h => h.score == n) hsub
  rw [List.filter_eq_self.mpr (fun a ha => (List.mem_filter.mp ha).2)] at hsub2
  exact (hsub2.eq_of_length hperm.length_eq.symm).symm

theorem mem_scoredHits {rows : List Turn} {q : Str} {h : SearchHit}
    (hm : h ∈ scoredHits rows q) :
    0 < h.score ∧ h.turn ∈ rows ∧ h.score = countOcc (pyLower h.turn.content) q := by
  unfold scoredHits at hm
  rcases List.mem_filterMap.mp hm with ⟨row, hrow, hf⟩
  by_cases hpos : 0 < countOcc (pyLower row.content) q
  · rw [if_pos hpos] at hf
    cases hf
    exact ⟨hpos, hrow, rfl⟩
  · rw [if_neg hpos] at hf
    exact Option.noConfusion hf

/-- Claim C7: for every session, an empty or whitespace-only query
returns an empty result without reading storage (for any store, even
one whose read fails); otherwise each archived turn is scored by the
non-overlapping occurrence count of the trimmed lowercased query in
its lowercased content, score-0 turns are excluded, and at most
`top_k` hits come back in descending score order, equal-score hits
keeping the archive's chronological order (stable sort). -/
theorem keyword_search_spec (store : Store) (session_id query : Str) (k : Nat) :
    (pyStrip query = [] →
      JsonlHistoryStore.keyword_search store session_id query k = Except.ok [])
    ∧ (∀ rows, JsonlHistoryStore.read_all store session_id = Except.ok rows →
        ∃ hits,
          JsonlHistoryStore.keyword_search store session_id query k = Except.ok hits
          ∧ hits.length ≤ k
          ∧ List.Sorted hitLE hits
          ∧ (∀ n, (hits.filter (fun h => h.score == n)).Sublist
              ((scoredHits rows (pyLower (pyStrip query))).filter (fun h => h.score == n)))
          ∧ (∀ h ∈ hits, 0 < h.score ∧ h.turn ∈ rows
              ∧ h.score = countOcc (pyLower h.turn.content) (pyLower (pyStrip query)))) := by
  constructor
  · intro hstrip
    unfold JsonlHistoryStore.keyword_search
    rw [if_pos (by rw [hstrip]; rfl)]
  · intro rows hrows
    by_cases hq : pyLower (pyStrip query) = []
    · refine ⟨[], ?hks0, by simp, List.sorted_nil, fun n => List.nil_sublist _, ?hmem0⟩
      · unfold JsonlHistoryStore.keyword_search
        rw [if_pos hq]
      · intro h hmem
        exact absurd hmem (List.not_mem_nil h)
    · refine ⟨(sortHits (scoredHits rows (pyLower (pyStrip query)))).take k,
        ?hks1, List.length_take_le _ _, ?hsorted1, ?hstable1, ?hmem1⟩
      · unfold JsonlHistoryStore.keyword_search
        rw [if_neg hq, hrows]
      · exact List.Pairwise.sublist (List.take_sublist _ _)
          (List.sorted_insertionSort hitLE _)
      · intro n
        rw [← sortHits_filter_score (scoredHits rows (pyLower (pyStrip query))) n]
        exact List.Sublist.filter _ (List.take_sublist _ _)
      · intro h hmem
        have h1 : h ∈ sortHits (scoredHits rows (pyLower (pyStrip query))) :=
          List.mem_of_mem_take hmem
        have h2 : h ∈ scoredHits rows (pyLower (pyStrip query)) :=
          (List.mem_insertionSort hitLE).mp h1
        exact mem_scoredHits h2

theorem keyword_search_spec_witness :
    JsonlHistoryStore.read_all goodStore sessionA = Except.ok [turnA, turnB, turnC]
    ∧ (∃ hits,
        JsonlHistoryStore.keyword_search goodStore sessionA (("cat").data) 5 = Except.ok hits
        ∧ hits.length ≤ 5
        ∧ List.Sorted hitLE hits
        ∧ (∀ n, (hits.filter (fun h => h.score == n)).Sublist
            ((scoredHits [turnA, turnB, turnC] (pyLower (pyStrip (("cat").data)))).filter
              (fun h => h.score == n)))
        ∧ (∀ h ∈ hits, 0 < h.score ∧ h.turn ∈ [turnA, turnB, turnC]
            ∧ h.score = countOcc (pyLower h.turn.content) (pyLower (pyStrip (("cat").data)))))
    ∧ JsonlHistoryStore.keyword_search goodStore sessionA (("  ").data) 5 = Except.ok [] :=
  ⟨rfl,
   (keyword_search_spec goodStore sessionA (("cat").data) 5).2 [turnA, turnB, turnC] rfl,
   (keyword_search_spec goodStore sessionA (("  ").data) 5).1 (by decide)⟩

theorem searchStep_ok_cases {cfg : MemoryConfig} {store1 : Store} {session_id : Str}
    {history_query : Option Str} {hits : List SearchHit}
    (hh : searchStep cfg store1 session_id history_query = Except.ok hits) :
    (history_query = none → hits = [])
    ∧ (∀ hq, history_query = some hq →
        (hq = [] → hits = [])
        ∧ (hq ≠ [] →
            JsonlHistoryStore.keyword_search store1 session_id hq cfg.search_top_k
              = Except.ok hits)) := by
  constructor
  · intro hnone
    rw [hnone] at hh
    simp only [searchStep] at hh
    injection hh with hh2
    exact hh2.symm
  · intro hq hsome
    rw [hsome] at hh
    simp only [searchStep] at hh
    constructor
    · intro hqe
      rw [if_pos hqe] at hh
      injection hh with hh2
      exact hh2.symm
    · intro hqe
      rw [if_neg hqe] at hh
      exact hh

theorem build_messages_ok_inv (cfg : MemoryConfig)
    (summarizer : Str → List Turn → Except Str Str) (append_ok : Bool)
    (session_id : Str) (st : MemState) (store : Store)
    (system_prompt user_message : Str) (history_query : Option Str)
    (msgs : List Msg) (ledger : PromptLedger) (st2 : MemState) (store2 : Store)
    (h : build_messages cfg summarizer append_ok session_id st store
          system_prompt user_message history_query
        = Except.ok (msgs, ledger, st2, store2)) :
    ∃ hits,
      (msgs, ledger, st2, store2)
        = assemble cfg session_id st2 store2 system_prompt user_message history_query hits
      ∧ searchStep cfg store2 session_id history_query = Except.ok hits := by
  unfold build_messages at h
  rcases hcomp : compactStep cfg summarizer append_ok session_id st store
    with ⟨sta, storea, erra⟩
  rw [hcomp] at h
  cases erra with
  | some e => exact Except.noConfusion h
  | none =>
    have h3 : (match searchStep cfg storea session_id history_query with
        | Except.error e =>
          (Except.error e : Except Str (List Msg × PromptLedger × MemState × Store))
        | Except.ok history_hits =>
          Except.ok (assemble cfg session_id sta storea system_prompt user_message
            history_query history_hits))
        = Except.ok (msgs, ledger, st2, store2) := h
    cases hh : searchStep cfg storea session_id history_query with
    | error e =>
      rw [hh] at h3
      exact Except.noConfusion h3
    | ok hits =>
      rw [hh] at h3
      injection h3 with h4
      have hst : sta = st2 := congrArg (fun x => x.2.2.1) h4
      have hstore : storea = store2 := congrArg (fun x => x.2.2.2) h4
      subst hst
      subst hstore
      exact ⟨hits, h4.symm, hh⟩

/-- Claim C1: every successful `build_messages` result starts with
exactly one system message holding the trimmed system prompt, ends
with exactly one user message holding `user_message`, and in between
holds, in this order: the rolling-summary system message (present iff
the summary is non-empty after trimming), every active turn in
chronological order with its original role and content, and the
history system message (present iff at least one hit was found, hits
rendered in search order) - and nothing else. -/
theorem build_messages_order (cfg : MemoryConfig)
    (summarizer : Str → List Turn → Except Str Str) (append_ok : Bool)
    (session_id : Str) (st : MemState) (store : Store)
    (system_prompt user_message : Str) (history_query : Option Str)
    (msgs : List Msg) (ledger : PromptLedger) (st2 : MemState) (store2 : Store)
    (h : build_messages cfg summarizer append_ok session_id st store
          system_prompt user_message history_query
        = Except.ok (msgs, ledger, st2, store2)) :
    ∃ hits,
      msgs = Msg.mk (("system").data) (pyStrip system_prompt)
          :: (summaryBlock st2.rolling_summary
            ++ st2.active_turns.map (fun t => Msg.mk t.role t.content)
            ++ historyBlock hits
            ++ [Msg.mk (("user").data) user_message])
      ∧ (summaryBlock st2.rolling_summary ≠ [] ↔ pyStrip st2.rolling_summary ≠ [])
      ∧ (historyBlock hits ≠ [] ↔ hits ≠ [])
      ∧ (history_query = none → hits = [])
      ∧ (∀ hq, history_query = some hq →
          (hq = [] → hits = [])
          ∧ (hq ≠ [] →
              JsonlHistoryStore.keyword_search store2 session_id hq cfg.search_top_k
                = Except.ok hits))
      ∧ msgs.head? = some (Msg.mk (("system").data) (pyStrip system_prompt))
      ∧ msgs.getLast? = some (Msg.mk (("user").data) user_message) := by
  obtain ⟨hits, heq, hcond⟩ := build_messages_ok_inv cfg summarizer append_ok session_id
    st store system_prompt user_message history_query msgs ledger st2 store2 h
  have hmsgs : msgs = (assemble cfg session_id st2 store2 system_prompt user_message
      history_query hits).1 := congrArg (fun x => x.1) heq
  have hform2 : msgs = (Msg.mk (("system").data) (pyStrip system_prompt)
      :: (summaryBlock st2.rolling_summary
        ++ st2.active_turns.map (fun t => Msg.mk t.role t.content)
        ++ historyBlock hits))
      ++ [Msg.mk (("user").data) user_message] := by
    rw [hmsgs]
    simp [assemble, List.append_assoc]
  have hform : msgs = Msg.mk (("system").data) (pyStrip system_prompt)
      :: (summaryBlock st2.rolling_summary
        ++ st2.active_turns.map (fun t => Msg.mk t.role t.content)
        ++ historyBlock hits
        ++ [Msg.mk (("user").data) user_message]) := by
    rw [hform2]
    simp [List.append_assoc]
  refine ⟨hits, hform, ?hsumiff, ?hhistiff, (searchStep_ok_cases hcond).1,
    (searchStep_ok_cases hcond).2, ?hhead, ?hlast⟩
  · unfold summaryBlock
    split
    · simp_all [List.isEmpty_iff]
    · simp_all [List.isEmpty_iff]
  · unfold historyBlock
    split
    · simp_all [List.isEmpty_iff]
    · simp_all [List.isEmpty_iff]
  · rw [hform]
    rfl
  · rw [hform2, List.getLast?_concat]

/-- Claim C10: for every successful `build_messages` call the ledger's
token estimate is at least 3 (system prompt, rolling summary - even
when empty and not injected - and user message each contribute at
least 1, since the rough estimate of any text is at least 1), and
every active turn adds at least 1 more; likewise the estimate driving
`_should_compact` is at least the number of active turns. -/
theorem token_estimate_bound (cfg : MemoryConfig)
    (summarizer : Str → List Turn → Except Str Str) (append_ok : Bool)
    (session_id : Str) (st : MemState) (store : Store)
    (system_prompt user_message : Str) (history_query : Option Str)
    (msgs : List Msg) (ledger : PromptLedger) (st2 : MemState) (store2 : Store)
    (h : build_messages cfg summarizer append_ok session_id st store
          system_prompt user_message history_query
        = Except.ok (msgs, ledger, st2, store2)) :
    3 ≤ ledger.token_estimate
    ∧ 3 + ledger.included_active_turns ≤ ledger.token_estimate
    ∧ _rough_tokens [] = 1
    ∧ (∀ turns : List Turn, turns.length ≤ _estimate_tokens turns) := by
  obtain ⟨hits, heq, _⟩ := build_messages_ok_inv cfg summarizer append_ok session_id
    st store system_prompt user_message history_query msgs ledger st2 store2 h
  have hled : ledger = (assemble cfg session_id st2 store2 system_prompt user_message
      history_query hits).2.1 := congrArg (fun x => x.2.1) heq
  have hkey : 3 + st2.active_turns.length
      ≤ _rough_tokens system_prompt + _rough_tokens st2.rolling_summary
        + _estimate_tokens st2.active_turns
        + (hits.map (fun hh => _rough_tokens hh.turn.content)).sum
        + _rough_tokens user_message := by
    have e1 := one_le_rough_tokens system_prompt
    have e2 := one_le_rough_tokens st2.rolling_summary
    have e3 := one_le_rough_tokens user_message
    have e4 := length_le_estimate_tokens st2.active_turns
    omega
  refine ⟨?hb1, ?hb2, rfl, fun turns => length_le_estimate_tokens turns⟩
  · rw [hled]
    exact Nat.le_trans (Nat.le_add_right 3 st2.active_turns.length) hkey
  · rw [hled]
    exact hkey

theorem build_messages_order_witness :
    ∃ hits,
      wMsgs = Msg.mk (("system").data) (pyStrip wSys)
          :: (summaryBlock initialState.rolling_summary
            ++ initialState.active_turns.map (fun t => Msg.mk t.role t.content)
            ++ historyBlock hits
            ++ [Msg.mk (("user").data) wUser])
      ∧ (summaryBlock initialState.rolling_summary ≠ []
          ↔ pyStrip initialState.rolling_summary ≠ [])
      ∧ (historyBlock hits ≠ [] ↔ hits ≠ [])
      ∧ ((none : Option Str) = none → hits = [])
      ∧ (∀ hq, (none : Option Str) = some hq →
          (hq = [] → hits = [])
          ∧ (hq ≠ [] →
              JsonlHistoryStore.keyword_search emptyStore sessionA hq wCfg.search_top_k
                = Except.ok hits))
      ∧ wMsgs.head? = some (Msg.mk (("system").data) (pyStrip wSys))
      ∧ wMsgs.getLast? = some (Msg.mk (("user").data) wUser) :=
  build_messages_order wCfg okSumm true sessionA initialState emptyStore wSys wUser none
    wMsgs wLedger initialState emptyStore rfl

theorem token_estimate_bound_witness :
    3 ≤ wLedger.token_estimate
    ∧ 3 + wLedger.included_active_turns ≤ wLedger.token_estimate
    ∧ _rough_tokens [] = 1
    ∧ (∀ turns : List Turn, turns.length ≤ _estimate_tokens turns) :=
  token_estimate_bound wCfg okSumm true sessionA initialState emptyStore wSys wUser none
    wMsgs wLedger initialState emptyStore rfl

end AgentMemory
